import Mathlib

/-!
Verification of the system-controller command pipeline against its design
specification.  Each definition is a shallow embedding of the corresponding
Rust item (file and symbol given in its doc comment); the theorems settle
the specification claims C1 .. C10.
-/

namespace SysCtrl

/-! ## Protocol data model (src/protocol/messages.rs) -/

/-- The ten command kinds of the wire protocol (enum CommandType). -/
inductive CommandType where
  | mouseMove
  | mouseClick
  | mouseScroll
  | keyPress
  | keyRelease
  | typeText
  | captureScreen
  | getDisplays
  | getWindowInfo
  | listWindows
deriving DecidableEq

/-- Mouse buttons (enum MouseButton in src/platform/traits.rs). -/
inductive MouseButton where
  | left
  | right
  | middle
deriving DecidableEq

/-! ## Session-path permission check (src/server/network_protocol.rs) -/

/-- Embeds NetworkProtocolIntegration::check_command_permission
(src/server/network_protocol.rs, lines 210-226): the per-command-type
permission test used on the session path.  Note the source sends
GetDisplays and ListWindows to the permission string "basic", and
MouseScroll, KeyRelease and GetWindowInfo to the wildcard arm that
requires "admin". -/
def check_command_permission (ct : CommandType) (permissions : List String) : Bool :=
  match ct with
  | .mouseMove | .mouseClick =>
      permissions.contains "mouse_control" || permissions.contains "admin"
  | .keyPress | .typeText =>
      permissions.contains "keyboard_control" || permissions.contains "admin"
  | .captureScreen =>
      permissions.contains "screen_capture" || permissions.contains "admin"
  | .getDisplays | .listWindows =>
      permissions.contains "basic" || permissions.contains "admin"
  | _ => permissions.contains "admin"

/-- Modelled from the spec: the per-command-type required permission as the
specification table states it (spec section 4.5). -/
def specRequiredPermission : CommandType → String
  | .mouseMove | .mouseClick | .mouseScroll => "mouse_control"
  | .keyPress | .keyRelease | .typeText => "keyboard_control"
  | .captureScreen => "screen_capture"
  | .getDisplays | .getWindowInfo | .listWindows => "window_management"

/-- The per-command-type permission the CODE actually requires in
check_command_permission, read off the match arms: the wildcard arm is
"admin"-only, and window enumeration needs only "basic". -/
def codeRequiredPermission : CommandType → String
  | .mouseMove | .mouseClick => "mouse_control"
  | .keyPress | .typeText => "keyboard_control"
  | .captureScreen => "screen_capture"
  | .getDisplays | .listWindows => "basic"
  | .mouseScroll | .keyRelease | .getWindowInfo => "admin"

/-! ## AuthManager (src/security/auth.rs) -/

/-- A stored user record (struct User in src/security/auth.rs): the salted
password hash and the granted permissions. -/
structure AuthUser where
  password_hash : String
  permissions : List String
deriving DecidableEq

/-- Association-list lookup standing for the users HashMap get. -/
def lookupUser (users : List (String × AuthUser)) (name : String) : Option AuthUser :=
  match users with
  | [] => none
  | (n, u) :: rest => if n = name then some u else lookupUser rest name

/-- Embeds AuthManager::authenticate_user (src/security/auth.rs, lines
129-143).  The bcrypt verify call is a parameter (external crate); token
minting is modelled as returning the subject name.  The source returns the
error text "user not found" when the username is absent from the store and
"authentication failed" when the password hash does not verify. -/
def authenticate_user (verify : String → String → Bool)
    (users : List (String × AuthUser)) (username password : String) :
    Except String String :=
  match lookupUser users username with
  | none => .error "user not found"
  | some user =>
      if verify password user.password_hash then .ok username
      else .error "authentication failed"

/-! ## Key-name validation (src/server/input.rs and src/platform/cross_platform.rs) -/

/-- Embeds InputValidator::validate_key_name (src/server/input.rs, lines
27-38): rejects the empty key and a key containing a NUL character.  It has
no length check. -/
def validate_key_name (key : String) : Except String Unit :=
  if key.isEmpty then .error "Key name cannot be empty"
  else if key.data.contains (Char.ofNat 0) then .error "Key name contains invalid characters"
  else .ok ()

/-- Embeds CrossPlatformController::validate_key (src/platform/
cross_platform.rs, lines 304-318): all checks are skipped when the
keyboard-control capability is off; otherwise rejects the empty key and a
key longer than 100.  It has no NUL check. -/
def validate_key (can_control_keyboard : Bool) (key : String) : Except String Unit :=
  if !can_control_keyboard then .ok ()
  else if key.isEmpty then .error "Key cannot be empty"
  else if key.length > 100 then .error "Key string too long"
  else .ok ()

/-! ## Platform backend contract and the Headless backend
(src/platform/traits.rs, src/platform/headless.rs) -/

/-- Display record (struct DisplayInfo in src/platform/traits.rs). -/
structure DisplayInfo where
  id : Nat
  name : String
  width : Nat
  height : Nat
  x : Int
  y : Int
  is_primary : Bool
deriving DecidableEq

/-- Window record (struct WindowInfo in src/platform/traits.rs). -/
structure WindowInfo where
  id : Nat
  title : String
  x : Int
  y : Int
  width : Nat
  height : Nat
  process_name : String
deriving DecidableEq

/-- The synchronous backend primitive set (trait PlatformController in
src/platform/traits.rs); screen bytes are lists of byte values. -/
structure PlatformController where
  mouse_move : Int → Int → Except String Unit
  mouse_click : MouseButton → Int → Int → Except String Unit
  mouse_scroll : Int → Int → Except String Unit
  key_press : String → Except String Unit
  key_release : String → Except String Unit
  type_text : String → Except String Unit
  capture_screen : Nat → Except String (List Nat)
  get_displays : Except String (List DisplayInfo)
  list_windows : Except String (List WindowInfo)

/-- The PNG signature bytes returned by the headless capture. -/
def pngSignature : List Nat := [0x89, 0x50, 0x4E, 0x47, 0x0D, 0x0A, 0x1A, 0x0A]

/-- Embeds impl PlatformController for HeadlessPlatform
(src/platform/headless.rs, lines 36-140): every input primitive succeeds,
the display list is one fixed primary 1920 by 1080 display at the origin,
list_windows returns the two synthetic windows, and capture_screen returns
the PNG signature for every display id. -/
def headlessPlatform : PlatformController where
  mouse_move := fun _ _ => .ok ()
  mouse_click := fun _ _ _ => .ok ()
  mouse_scroll := fun _ _ => .ok ()
  key_press := fun _ => .ok ()
  key_release := fun _ => .ok ()
  type_text := fun _ => .ok ()
  capture_screen := fun _ => .ok pngSignature
  get_displays := .ok [⟨0, "Headless Display", 1920, 1080, 0, 0, true⟩]
  list_windows := .ok
    [⟨1, "Terminal", 0, 0, 800, 600, "terminal"⟩,
     ⟨2, "Editor", 800, 0, 1120, 1080, "editor"⟩]

/-! ## Command schema, validation and the live network pipeline
(src/protocol/messages.rs, src/server/network.rs) -/

/-- The tagged payload union (enum CommandPayload in
src/protocol/messages.rs). -/
inductive CommandPayload where
  | mouseMove (x y : Int)
  | mouseClick (button : MouseButton) (x y : Int)
  | mouseScroll (x y : Int)
  | keyPress (key : String)
  | keyRelease (key : String)
  | typeText (text : String)
  | captureScreen (display_id : Nat)
  | getDisplays
  | getWindowInfo (x y : Int)
  | listWindows

/-- A parsed command (struct Command); the advisory timestamp string is
carried but never inspected by the embedded pipeline. -/
structure Command where
  id : String
  command_type : CommandType
  payload : CommandPayload
  timestamp : String

/-- Response status (enum ResponseStatus). -/
inductive ResponseStatus where
  | success
  | error
deriving DecidableEq

/-- Response data union (enum ResponseData). -/
inductive ResponseData where
  | screenCapture (size : Nat) (format : String)
  | displayInfo (displays : List DisplayInfo)
  | windowInfo (windows : List WindowInfo)
deriving DecidableEq

/-- A response (struct Response); the wall-clock timestamp string is
omitted from the embedding. -/
structure Response where
  command_id : String
  status : ResponseStatus
  error : Option String
  data : Option ResponseData
deriving DecidableEq

/-- Embeds Command::validate (src/protocol/messages.rs, lines 110-135). -/
def Command.validate (c : Command) : Except String Unit :=
  match c.payload with
  | .mouseMove x y =>
      if x < 0 || y < 0 then .error "Mouse coordinates must be non-negative" else .ok ()
  | .mouseClick _ x y =>
      if x < 0 || y < 0 then .error "Mouse coordinates must be non-negative" else .ok ()
  | .keyPress key => if key.isEmpty then .error "Key cannot be empty" else .ok ()
  | .keyRelease key => if key.isEmpty then .error "Key cannot be empty" else .ok ()
  | .typeText text => if text.length > 1000 then .error "Text input too long" else .ok ()
  | _ => .ok ()

/-- Builds the success or error response from a backend primitive result,
as the tail of NetworkServer::process_command does. -/
def respOf (id : String) : Except String Unit → Response × Option (List Nat)
  | .ok _ => (⟨id, .success, none, none⟩, none)
  | .error e => (⟨id, .error, some e, none⟩, none)

/-- Embeds the live pipeline NetworkServer::process_command
(src/server/network.rs, lines 249-330), after JSON parsing: capture_screen
is answered with the capture bytes as a binary trailer, mouse_move,
mouse_click and key_press are dispatched directly to the backend, and all
other payloads succeed by default.  The source never calls
Command::validate on this path. -/
def process_command (platform : PlatformController) (c : Command) :
    Response × Option (List Nat) :=
  match c.payload with
  | .captureScreen display_id =>
      match platform.capture_screen display_id with
      | .ok data =>
          (⟨c.id, .success, none, some (.screenCapture data.length "png")⟩, some data)
      | .error e => (⟨c.id, .error, some e, none⟩, none)
  | .mouseMove x y => respOf c.id (platform.mouse_move x y)
  | .mouseClick b x y => respOf c.id (platform.mouse_click b x y)
  | .keyPress k => respOf c.id (platform.key_press k)
  | _ => respOf c.id (.ok ())

/-! ## Audit alert ring (src/security/audit.rs) -/

/-- Event severity (enum SecuritySeverity in src/security/audit.rs). -/
inductive SecuritySeverity where
  | info
  | warning
  | error
  | critical
deriving DecidableEq

/-- A security event, reduced to the fields the alert ring inspects: an
abstract event tag plus the severity. -/
structure SecurityEvent where
  tag : Nat
  severity : SecuritySeverity
deriving DecidableEq

/-- The alert-ring effect of AuditLogger::log_security_event
(src/security/audit.rs, lines 169-184): events of severity error or
critical are appended and the ring is trimmed to its last 100 entries;
other severities leave the ring unchanged. -/
def log_security_event_ring (ring : List SecurityEvent) (e : SecurityEvent) :
    List SecurityEvent :=
  match e.severity with
  | .error | .critical =>
      let r := ring ++ [e]
      if r.length > 100 then r.drop (r.length - 100) else r
  | _ => ring

/-- Embeds RealTimeMonitor::get_recent_alerts (src/security/audit.rs,
lines 359-363): it clones the shared ring without any further cap. -/
def get_recent_alerts (ring : List SecurityEvent) : List SecurityEvent := ring

/-- Embeds RealTimeMonitor::add_alert (src/security/audit.rs, lines
365-376): appends and trims the ring to its last 50 entries. -/
def add_alert (ring : List SecurityEvent) (e : SecurityEvent) : List SecurityEvent :=
  let r := ring ++ [e]
  if r.length > 50 then r.drop (r.length - 50) else r

/-! ## CrossPlatformController state tracking
(src/platform/cross_platform.rs) -/

/-- Shared input state (struct InputState): the pressed-key map is an
association list from key to press time. -/
structure InputState where
  pressed_keys : List (String × Nat)
  total_commands_executed : Nat
  last_command_time : Option Nat
deriving DecidableEq

/-- HashMap::insert on the pressed-key map: replaces the binding when the
key is present, appends it otherwise. -/
def insertKey (m : List (String × Nat)) (k : String) (v : Nat) : List (String × Nat) :=
  match m with
  | [] => [(k, v)]
  | (k0, v0) :: rest => if k0 = k then (k, v) :: rest else (k0, v0) :: insertKey rest k v

/-- Performance metrics (struct PerformanceMetrics), with durations in
integer milliseconds; the floating-point peak-ops watermark is omitted
(none of the settled claims mentions it). -/
structure PerformanceMetrics where
  total_operations : Nat
  failed_operations : Nat
  average_response_time : Nat
  last_operation_time : Option Nat
deriving DecidableEq

/-- Embeds CrossPlatformController::update_performance_metrics
(src/platform/cross_platform.rs, lines 321-349): increments the total,
counts a failure, and folds the duration into the running average with
the source's integer arithmetic. -/
def update_performance_metrics (m : PerformanceMetrics) (duration now : Nat)
    (success : Bool) : PerformanceMetrics :=
  let total := m.total_operations + 1
  let failed := if success then m.failed_operations else m.failed_operations + 1
  let avg := (m.average_response_time * (total - 1) + duration) / total
  ⟨total, failed, avg, some now⟩

/-- Embeds CrossPlatformController::enhanced_key_press
(src/platform/cross_platform.rs, lines 144-169): validate, then record the
key and bump the command counter, then execute the backend primitive (a
no-op when the keyboard capability is off), then update the metrics.  The
backend result is returned but the state updates are never rolled back. -/
def enhanced_key_press (ccw : Bool) (backend_key_press : String → Except String Unit)
    (duration now : Nat) (key : String) (st : InputState) (m : PerformanceMetrics) :
    Except String Unit × InputState × PerformanceMetrics :=
  match validate_key ccw key with
  | .error e => (.error e, st, m)
  | .ok _ =>
      let st1 : InputState :=
        ⟨insertKey st.pressed_keys key now, st.total_commands_executed + 1, some now⟩
      let result := if ccw then backend_key_press key else .ok ()
      let m1 := update_performance_metrics m duration now result.isOk
      (result, st1, m1)

/-! ## Batcher adaptive retuning (src/platform/optimizations.rs) -/

/-- Operation statistics (struct OperationStatistics), with the average
operation time as an exact rational in milliseconds and the stats
timestamp in seconds; the floating-point peak and cpu fields are omitted
(no settled claim mentions them). -/
structure OperationStatistics where
  total_operations : Nat
  successful_operations : Nat
  failed_operations : Nat
  average_operation_time : ℚ
  memory_usage_bytes : Nat
  last_stats_update : Option Nat
deriving DecidableEq

/-- Tuning configuration (struct OptimizationConfig), restricted to the
fields adaptive retuning touches; durations are exact rationals in
milliseconds, so the source's f32 scaling is idealized as exact rational
scaling. -/
structure OptimizationConfig where
  batch_size : Nat
  enable_caching : Bool
  cache_ttl : ℚ
  min_operation_interval : ℚ
  max_memory_usage_mb : Nat
deriving DecidableEq

/-- The retuning guard of apply_adaptive_optimizations: more than 60
seconds since the last stats update (always true when no update is
recorded); a stats timestamp in the future yields a zero elapsed duration,
matched by truncated subtraction. -/
def should_adapt (now : Nat) (stats : OperationStatistics) : Bool :=
  match stats.last_stats_update with
  | some lu => decide (60 < now - lu)
  | none => true

/-- Embeds PlatformOptimizations::apply_adaptive_optimizations
(src/platform/optimizations.rs, lines 368-405).  Note the source compares
failed_operations against successful_operations / 10 (not total / 10), and
its decrement is batch_size.max(1) - 1, which takes batch size 1 to 0. -/
def apply_adaptive_optimizations (now : Nat) (stats : OperationStatistics)
    (cfg : OptimizationConfig) : OptimizationConfig :=
  if should_adapt now stats then
    let cfg1 :=
      if stats.successful_operations / 10 < stats.failed_operations then
        { cfg with batch_size := cfg.batch_size.max 1 - 1,
                   min_operation_interval := cfg.min_operation_interval * (6 / 5) }
      else if stats.average_operation_time < 10 then
        { cfg with batch_size := Nat.min (cfg.batch_size + 1) 100,
                   min_operation_interval := cfg.min_operation_interval * (9 / 10) }
      else cfg
    if cfg.max_memory_usage_mb * 1024 * 1024 < stats.memory_usage_bytes then
      { cfg1 with enable_caching := false, cache_ttl := cfg1.cache_ttl * (4 / 5) }
    else cfg1
  else cfg

/-! ## Batcher priority queue (src/platform/optimized_controller.rs) -/

/-- A queued operation (struct QueuedOperation), reduced to the fields the
ordering claims inspect: the u8 priority and an abstract tag standing for
the operation payload, used here as the enqueue sequence number. -/
structure QueuedOperation where
  priority : Nat
  tag : Nat
deriving DecidableEq

/-- Embeds OptimizedPlatformController::queue_operation
(src/platform/optimized_controller.rs, lines 232-242): the new operation
is inserted at the first position whose element has strictly smaller
priority, or at the end. -/
def queue_insert (queue : List QueuedOperation) (op : QueuedOperation) :
    List QueuedOperation :=
  match queue with
  | [] => [op]
  | x :: xs => if x.priority < op.priority then op :: x :: xs else x :: queue_insert xs op

/-- The queue produced by a sequence of enqueues starting from empty. -/
def enqueue_all (ops : List QueuedOperation) : List QueuedOperation :=
  ops.foldl queue_insert []

/-- The execution-order relation of the flushed queue
(process_current_queue drains front to back, lines 274-300, and
execute_batch_operations runs the drained vector in order): an earlier
element has strictly higher priority, or equal priority and an earlier
enqueue tag. -/
def execBefore (a b : QueuedOperation) : Prop :=
  b.priority < a.priority ∨ (a.priority = b.priority ∧ a.tag < b.tag)

instance : DecidableRel execBefore := fun a b =>
  inferInstanceAs (Decidable (b.priority < a.priority ∨ (a.priority = b.priority ∧ a.tag < b.tag)))

/-! ## Sliding-window rate limiter (src/security/audit.rs) -/

/-- Rate-limiter parameters (struct RateLimiter fields max_requests and
window_duration); timestamps and the window width are integers. -/
structure RateLimiterConfig where
  max_requests : Nat
  window : Int

/-- The retention test of check_rate_limit: a timestamp survives iff it is
strictly newer than now minus the window. -/
def cutB (rl : RateLimiterConfig) (c t : Int) : Bool :=
  decide (c - rl.window < t)

/-- Membership of a timestamp in the trailing window (T - window, T]. -/
def winB (rl : RateLimiterConfig) (T t : Int) : Bool :=
  decide (T - rl.window < t ∧ t ≤ T)

/-- Embeds RateLimiter::check_rate_limit (src/security/audit.rs, lines
405-432) for one user key: drop the timestamps at or before now - window,
admit iff fewer than max_requests remain, and push the current timestamp
on admission.  Returns the decision and the new retained list. -/
def check_rate_limit (rl : RateLimiterConfig) (s : List Int) (now : Int) :
    Bool × List Int :=
  let kept := s.filter (cutB rl now)
  if kept.length < rl.max_requests then (true, kept ++ [now]) else (false, kept)

/-- The retained-timestamp state after a sequence of calls. -/
def rl_state_after (rl : RateLimiterConfig) (s : List Int) (calls : List Int) :
    List Int :=
  calls.foldl (fun st c => (check_rate_limit rl st c).2) s

/-- The timestamps of the admitted calls of a sequence, in call order. -/
def rl_admitted (rl : RateLimiterConfig) (s : List Int) : List Int → List Int
  | [] => []
  | c :: cs =>
      let r := check_rate_limit rl s c
      if r.1 then c :: rl_admitted rl r.2 cs else rl_admitted rl r.2 cs

end SysCtrl

open SysCtrl

open SysCtrl

/-- C1 counterexample: the claim says the session-path check passes for
mouse_scroll whenever "mouse_control" is held, but
check_command_permission sends MouseScroll to the admin-only wildcard arm,
so the check fails for the permission list ["mouse_control"]. -/
theorem claim_C1_counterexample :
    ¬ (check_command_permission CommandType.mouseScroll ["mouse_control"] = true ↔
      (specRequiredPermission CommandType.mouseScroll ∈ ["mouse_control"] ∨
        "admin" ∈ (["mouse_control"] : List String))) := by
  decide

/-- C1 amended: the session-path permission check passes iff the
per-command-type permission the code actually requires (mouse_control for
mouse_move and mouse_click; keyboard_control for key_press and type_text;
screen_capture for capture_screen; basic for get_displays and
list_windows; admin for mouse_scroll, key_release and get_window_info) is
in session.permissions, or "admin" is. -/
theorem claim_C1_amended (ct : CommandType) (perms : List String) :
    check_command_permission ct perms = true ↔
      (codeRequiredPermission ct ∈ perms ∨ "admin" ∈ perms) := by
  cases ct <;>
    simp [check_command_permission, codeRequiredPermission, List.contains]

/-- C2 counterexample: authentication failure for a non-existent user
yields the error text "user not found", not "authentication failed", so
the error text does reveal user existence. -/
theorem claim_C2_counterexample :
    authenticate_user (fun _ _ => false) [] "alice" "pw" = .error "user not found" ∧
    "user not found" ≠ "authentication failed" :=
  ⟨rfl, by decide⟩

/-- C2 amended: when the username is absent from the store, authenticate
returns the error text "user not found"; when the user exists and password
verification fails, it returns "authentication failed".  The two failure
modes are distinguishable, so the error text is a user-existence oracle. -/
theorem claim_C2_amended (verify : String → String → Bool)
    (users : List (String × AuthUser)) (u p : String) :
    (lookupUser users u = none →
      authenticate_user verify users u p = .error "user not found") ∧
    (∀ user, lookupUser users u = some user → verify p user.password_hash = false →
      authenticate_user verify users u p = .error "authentication failed") := by
  constructor
  · intro h
    simp [authenticate_user, h]
  · intro user h hv
    simp [authenticate_user, h, hv]

/-- Witness for C2 amended at a concrete store: a missing user and an
existing user with a failing password produce the two distinct errors. -/
theorem claim_C2_witness :
    authenticate_user (fun _ _ => false) [("alice", ⟨"h", []⟩)] "bob" "pw"
        = .error "user not found" ∧
    authenticate_user (fun _ _ => false) [("alice", ⟨"h", []⟩)] "alice" "pw"
        = .error "authentication failed" :=
  ⟨(claim_C2_amended (fun _ _ => false) [("alice", ⟨"h", []⟩)] "bob" "pw").1 rfl,
   (claim_C2_amended (fun _ _ => false) [("alice", ⟨"h", []⟩)] "alice" "pw").2
     ⟨"h", []⟩ rfl rfl⟩

/-- C4 counterexample: the dispatch-path validator
InputValidator::validate_key_name accepts a key of 101 characters (it has
no length check), and CrossPlatformController::validate_key accepts a key
consisting of one NUL character (it has no NUL check), both contradicting
the claimed accept-iff condition. -/
theorem claim_C4_counterexample :
    validate_key_name (String.mk (List.replicate 101 (Char.ofNat 97))) = .ok () ∧
    (String.mk (List.replicate 101 (Char.ofNat 97))).length = 101 ∧
    validate_key true (String.mk [Char.ofNat 0]) = .ok () ∧
    (String.mk [Char.ofNat 0]).data.contains (Char.ofNat 0) = true :=
  ⟨rfl, by decide, rfl, by decide⟩

/-- C4 amended: validate_key_name accepts a key iff it is non-empty and
free of NUL characters (no length bound), while validate_key accepts a key
iff the keyboard capability is off, or the key is non-empty with length at
most 100 (no NUL check). -/
theorem claim_C4_amended (key : String) (ccw : Bool) :
    ((validate_key_name key).isOk = true ↔
      (key.isEmpty = false ∧ Char.ofNat 0 ∉ key.data)) ∧
    ((validate_key ccw key).isOk = true ↔
      (ccw = false ∨ (key.isEmpty = false ∧ key.length ≤ 100))) := by
  constructor
  · cases h1 : key.isEmpty <;> by_cases h2 : Char.ofNat 0 ∈ key.data <;>
      simp [validate_key_name, h1, h2, Except.isOk, Except.toBool]
  · cases ccw
    · simp [validate_key, Except.isOk, Except.toBool]
    · cases h1 : key.isEmpty
      · by_cases h3 : key.length ≤ 100
        · have h4 : ¬ (key.length > 100) := by omega
          simp [validate_key, h1, h4, Except.isOk, Except.toBool, h3]
        · have h4 : key.length > 100 := by omega
          simp [validate_key, h1, h4, Except.isOk, Except.toBool]
      · simp [validate_key, h1, Except.isOk, Except.toBool]

/-- C9: the Headless backend is deterministic: every input primitive
returns success for all arguments, get_displays is the single primary
1920 by 1080 display at the origin, list_windows has exactly two entries,
and capture_screen returns the PNG signature bytes for every display id. -/
theorem claim_C9_headless (x y : Int) (b : MouseButton) (k t : String) (d : Nat) :
    headlessPlatform.mouse_move x y = .ok () ∧
    headlessPlatform.mouse_click b x y = .ok () ∧
    headlessPlatform.mouse_scroll x y = .ok () ∧
    headlessPlatform.key_press k = .ok () ∧
    headlessPlatform.key_release k = .ok () ∧
    headlessPlatform.type_text t = .ok () ∧
    headlessPlatform.get_displays = .ok [⟨0, "Headless Display", 1920, 1080, 0, 0, true⟩] ∧
    (∃ w1 w2, headlessPlatform.list_windows = .ok [w1, w2]) ∧
    headlessPlatform.capture_screen d
      = .ok [0x89, 0x50, 0x4E, 0x47, 0x0D, 0x0A, 0x1A, 0x0A] :=
  ⟨rfl, rfl, rfl, rfl, rfl, rfl, rfl,
   ⟨⟨1, "Terminal", 0, 0, 800, 600, "terminal"⟩,
    ⟨2, "Editor", 800, 0, 1120, 1080, "editor"⟩, rfl⟩, rfl⟩

open SysCtrl


/-- C3 counterexample: the live pipeline NetworkServer::process_command
answers a mouse_move command with x = -1 with status success on the
headless backend, i.e. the command is dispatched to the backend and is not
rejected, although Command::validate would have rejected it. -/
theorem claim_C3_counterexample :
    (process_command headlessPlatform
        ⟨"m1", .mouseMove, .mouseMove (-1) 0, "t"⟩).1.status = .success ∧
    Command.validate ⟨"m1", .mouseMove, .mouseMove (-1) 0, "t"⟩
      = .error "Mouse coordinates must be non-negative" :=
  ⟨rfl, rfl⟩

/-- C3 amended: Command::validate does accept mouse_move and mouse_click
payloads exactly when both coordinates are non-negative, but the live
pipeline NetworkServer::process_command never invokes it: the response for
these commands is exactly the backend primitive's result, so a
negative-coordinate command reaches the backend (and succeeds on the
headless backend). -/
theorem claim_C3_amended (platform : PlatformController) (id ts : String)
    (x y : Int) (b : MouseButton) :
    (Command.validate ⟨id, .mouseMove, .mouseMove x y, ts⟩ = .ok () ↔ 0 ≤ x ∧ 0 ≤ y) ∧
    (Command.validate ⟨id, .mouseClick, .mouseClick b x y, ts⟩ = .ok () ↔ 0 ≤ x ∧ 0 ≤ y) ∧
    process_command platform ⟨id, .mouseMove, .mouseMove x y, ts⟩
      = respOf id (platform.mouse_move x y) ∧
    process_command platform ⟨id, .mouseClick, .mouseClick b x y, ts⟩
      = respOf id (platform.mouse_click b x y) := by
  refine ⟨?_, ?_, rfl, rfl⟩
  · by_cases hx : x < 0 <;> by_cases hy : y < 0 <;>
      simp [Command.validate, hx, hy] <;> try omega
  · by_cases hx : x < 0 <;> by_cases hy : y < 0 <;>
      simp [Command.validate, hx, hy] <;> try omega

set_option maxRecDepth 4000 in
/-- C8 counterexample: sixty logged error events leave sixty alerts in the
ring, and get_recent_alerts returns all of them, so a returned list can
exceed 50 entries. -/
theorem claim_C8_counterexample :
    (get_recent_alerts
      ((List.replicate 60 (⟨0, .error⟩ : SecurityEvent)).foldl
        log_security_event_ring [])).length = 60 := by
  decide

/-- Step bound: one logged event never pushes the ring past 100 entries. -/
theorem log_ring_step_le (ring : List SecurityEvent) (e : SecurityEvent)
    (h : ring.length ≤ 100) : (log_security_event_ring ring e).length ≤ 100 := by
  unfold log_security_event_ring
  cases e.severity <;> simp only [] <;> try exact h
  all_goals
    by_cases hlen : (ring ++ [e]).length > 100
    · simp only [hlen, if_pos]
      simp [List.length_drop]
      omega
    · simp only [hlen, if_neg, not_false_iff]
      simp at hlen ⊢
      omega

/-- C8 amended: the ring holds at most 100 alerts after any sequence of
logged events, get_recent_alerts returns the ring unchanged (so its cap is
100, not 50), and only RealTimeMonitor::add_alert trims to 50 entries. -/
theorem claim_C8_amended :
    (∀ events : List SecurityEvent,
      ((events.foldl log_security_event_ring []).length ≤ 100)) ∧
    (∀ ring : List SecurityEvent, get_recent_alerts ring = ring) ∧
    (∀ (ring : List SecurityEvent) (e : SecurityEvent),
      (add_alert ring e).length ≤ 50) := by
  refine ⟨?_, fun _ => rfl, ?_⟩
  · have step : ∀ (events : List SecurityEvent) (ring : List SecurityEvent),
        ring.length ≤ 100 →
        (events.foldl log_security_event_ring ring).length ≤ 100 := by
      intro events
      induction events with
      | nil => intro ring h; simpa using h
      | cons e rest ih =>
          intro ring h
          exact ih _ (log_ring_step_le ring e h)
    intro events
    exact step events [] (by simp)
  · intro ring e
    unfold add_alert
    by_cases hlen : (ring ++ [e]).length > 50
    · simp only [hlen, if_pos]
      simp [List.length_drop]
      omega
    · simp only [hlen, if_neg, not_false_iff]
      simp at hlen ⊢
      omega

/-- Inserting a key always leaves it among the map keys. -/
theorem mem_insertKey (m : List (String × Nat)) (k : String) (v : Nat) :
    k ∈ (insertKey m k v).map Prod.fst := by
  induction m with
  | nil => simp [insertKey]
  | cons p rest ih =>
      by_cases h : p.1 = k
      · simp [insertKey, h]
      · simp only [insertKey]
        rw [if_neg ?_]
        · simpa using Or.inr ih
        · exact h

/-- C10 counterexample: enhanced_key_press on the empty key with the
keyboard capability on fails validation and returns before touching the
shared state, so the key is not recorded and no counter moves. -/
theorem claim_C10_counterexample :
    (enhanced_key_press true (fun _ => .ok ()) 0 0 "" ⟨[], 0, none⟩
        ⟨0, 0, 0, none⟩).2.1.total_commands_executed = 0 ∧
    (enhanced_key_press true (fun _ => .ok ()) 0 0 "" ⟨[], 0, none⟩
        ⟨0, 0, 0, none⟩).2.2.total_operations = 0 ∧
    ¬ ("" ∈ ((enhanced_key_press true (fun _ => .ok ()) 0 0 "" ⟨[], 0, none⟩
        ⟨0, 0, 0, none⟩).2.1.pressed_keys.map Prod.fst)) := by
  refine ⟨rfl, rfl, ?_⟩
  decide

/-- C10 amended: for every key ACCEPTED BY validate_key, after
enhanced_key_press returns — whether the backend primitive succeeded or
failed — the key is recorded in pressed_keys, total_commands_executed is
incremented by exactly one, and the metrics' total_operations is
incremented; the backend result never rolls these updates back because the
state mutation precedes execution. -/
theorem claim_C10_amended (ccw : Bool) (backend : String → Except String Unit)
    (duration now : Nat) (key : String) (st : InputState) (m : PerformanceMetrics)
    (h : validate_key ccw key = .ok ()) :
    key ∈ ((enhanced_key_press ccw backend duration now key st m).2.1.pressed_keys.map
      Prod.fst) ∧
    (enhanced_key_press ccw backend duration now key st m).2.1.total_commands_executed
      = st.total_commands_executed + 1 ∧
    (enhanced_key_press ccw backend duration now key st m).2.2.total_operations
      = m.total_operations + 1 := by
  refine ⟨?_, ?_, ?_⟩
  · simp only [enhanced_key_press, h]
    exact mem_insertKey st.pressed_keys key now
  · simp [enhanced_key_press, h]
  · simp [enhanced_key_press, h, update_performance_metrics]

/-- Witness for C10 amended: a concrete run with a failing backend still
records the key and bumps both counters. -/
theorem claim_C10_witness :
    "a" ∈ ((enhanced_key_press true (fun _ => .error "backend down") 3 7 "a"
      ⟨[], 5, none⟩ ⟨9, 2, 4, none⟩).2.1.pressed_keys.map Prod.fst) ∧
    (enhanced_key_press true (fun _ => .error "backend down") 3 7 "a"
      ⟨[], 5, none⟩ ⟨9, 2, 4, none⟩).2.1.total_commands_executed = 5 + 1 ∧
    (enhanced_key_press true (fun _ => .error "backend down") 3 7 "a"
      ⟨[], 5, none⟩ ⟨9, 2, 4, none⟩).2.2.total_operations = 9 + 1 :=
  claim_C10_amended true (fun _ => .error "backend down") 3 7 "a"
    ⟨[], 5, none⟩ ⟨9, 2, 4, none⟩ rfl

/-- C7 counterexample: with no recorded stats update (retuning applies)
and one failed operation out of one total — so failed exceeds a tenth of
total — a batch size of 1 is retuned to 0, violating the claimed floor of
1. -/
theorem claim_C7_counterexample :
    (⟨1, 0, 1, 100, 0, none⟩ : OperationStatistics).total_operations / 10
        < (⟨1, 0, 1, 100, 0, none⟩ : OperationStatistics).failed_operations ∧
    (apply_adaptive_optimizations 0 ⟨1, 0, 1, 100, 0, none⟩
        ⟨1, true, 30000, 10, 500⟩).batch_size = 0 := by
  refine ⟨by decide, ?_⟩
  rfl

/-- C7 amended: when retuning applies, the failure branch triggers iff
failed operations exceed one tenth of the SUCCESSFUL count (integer
division), and it sets the batch size to max(batch,1) - 1 — a saturating
decrement whose floor is 0, not 1 — while scaling the interval by 6/5;
only otherwise, when the average latency is below 10 ms, the batch size is
incremented with cap 100 and the interval scaled by 9/10. -/
theorem claim_C7_amended (now : Nat) (stats : OperationStatistics)
    (cfg : OptimizationConfig) (h : should_adapt now stats = true) :
    ((stats.successful_operations / 10 < stats.failed_operations →
      (apply_adaptive_optimizations now stats cfg).batch_size
          = cfg.batch_size.max 1 - 1 ∧
      (apply_adaptive_optimizations now stats cfg).min_operation_interval
          = cfg.min_operation_interval * (6 / 5)) ∧
    (¬ stats.successful_operations / 10 < stats.failed_operations →
      stats.average_operation_time < 10 →
      (apply_adaptive_optimizations now stats cfg).batch_size
          = Nat.min (cfg.batch_size + 1) 100 ∧
      (apply_adaptive_optimizations now stats cfg).min_operation_interval
          = cfg.min_operation_interval * (9 / 10)) ∧
    (apply_adaptive_optimizations now stats cfg).batch_size
        ≤ Nat.max cfg.batch_size 100) := by
  unfold apply_adaptive_optimizations
  rw [h]
  by_cases h1 : stats.successful_operations / 10 < stats.failed_operations
  · by_cases h2 : cfg.max_memory_usage_mb * 1024 * 1024 < stats.memory_usage_bytes <;>
      simp [h1, h2]
  · by_cases h3 : stats.average_operation_time < 10 <;>
      by_cases h2 : cfg.max_memory_usage_mb * 1024 * 1024 < stats.memory_usage_bytes <;>
        simp [h1, h2, h3]

/-- Witness for C7 amended: a concrete failing-heavy run with batch size 4
is retuned to 3 with the interval scaled by 6/5. -/
theorem claim_C7_witness :
    ((5 : Nat) / 10 < 6 →
      (apply_adaptive_optimizations 0 ⟨11, 5, 6, 100, 0, none⟩
          ⟨4, true, 30000, 10, 500⟩).batch_size = Nat.max 4 1 - 1 ∧
      (apply_adaptive_optimizations 0 ⟨11, 5, 6, 100, 0, none⟩
          ⟨4, true, 30000, 10, 500⟩).min_operation_interval = 10 * (6 / 5)) ∧
    (¬ (5 : Nat) / 10 < 6 →
      (100 : ℚ) < 10 →
      (apply_adaptive_optimizations 0 ⟨11, 5, 6, 100, 0, none⟩
          ⟨4, true, 30000, 10, 500⟩).batch_size = Nat.min (4 + 1) 100 ∧
      (apply_adaptive_optimizations 0 ⟨11, 5, 6, 100, 0, none⟩
          ⟨4, true, 30000, 10, 500⟩).min_operation_interval = 10 * (9 / 10)) ∧
    (apply_adaptive_optimizations 0 ⟨11, 5, 6, 100, 0, none⟩
        ⟨4, true, 30000, 10, 500⟩).batch_size ≤ Nat.max 4 100 :=
  claim_C7_amended 0 ⟨11, 5, 6, 100, 0, none⟩ ⟨4, true, 30000, 10, 500⟩ rfl

/-- An insertion is a permutation: the new operation joins the queue and
nothing is lost. -/
theorem queue_insert_perm (q : List QueuedOperation) (op : QueuedOperation) :
    (queue_insert q op).Perm (op :: q) := by
  induction q with
  | nil => exact List.Perm.refl _
  | cons x xs ih =>
      by_cases h : x.priority < op.priority
      · simp [queue_insert, h]
      · simp only [queue_insert, if_neg h]
        exact (ih.cons x).trans (List.Perm.swap op x xs)

/-- Inserting an operation whose tag exceeds every tag in a queue that is
already in execution order keeps the queue in execution order. -/
theorem queue_insert_pairwise (q : List QueuedOperation) (op : QueuedOperation)
    (hq : q.Pairwise execBefore) (htag : ∀ x ∈ q, x.tag < op.tag) :
    (queue_insert q op).Pairwise execBefore := by
  induction q with
  | nil => simp [queue_insert]
  | cons x xs ih =>
      rw [List.pairwise_cons] at hq
      by_cases h : x.priority < op.priority
      · simp only [queue_insert, if_pos h]
        refine List.Pairwise.cons ?_ (List.Pairwise.cons hq.1 hq.2)
        intro y hy
        rcases List.mem_cons.mp hy with hy1 | hy1
        · rw [hy1]
          exact Or.inl h
        · rcases hq.1 y hy1 with hlt | ⟨heq, _⟩
          · exact Or.inl (lt_trans hlt h)
          · exact Or.inl (heq ▸ h)
      · simp only [queue_insert, if_neg h]
        refine List.Pairwise.cons ?_ (ih hq.2 (fun z hz => htag z (List.mem_cons_of_mem x hz)))
        intro y hy
        have hy2 : y ∈ op :: xs := (queue_insert_perm xs op).mem_iff.mp hy
        rcases List.mem_cons.mp hy2 with hy3 | hy3
        · rw [hy3]
          have hge : op.priority ≤ x.priority := Nat.le_of_not_lt h
          rcases Nat.eq_or_lt_of_le hge with heq | hlt
          · exact Or.inr ⟨heq.symm, htag x (List.mem_cons_self x xs)⟩
          · exact Or.inl hlt
        · exact hq.1 y hy3

/-- Folding enqueues over a queue permutes to the concatenation. -/
theorem enqueue_foldl_perm (ops : List QueuedOperation) :
    ∀ q : List QueuedOperation, (ops.foldl queue_insert q).Perm (ops ++ q) := by
  induction ops with
  | nil => intro q; simp
  | cons o os ih =>
      intro q
      have h1 : (os.foldl queue_insert (queue_insert q o)).Perm (os ++ queue_insert q o) :=
        ih _
      have h2 : (os ++ queue_insert q o).Perm (os ++ (o :: q)) :=
        List.Perm.append_left os (queue_insert_perm q o)
      have h3 : (os ++ (o :: q)).Perm (o :: (os ++ q)) := List.perm_middle
      exact h1.trans (h2.trans h3)

/-- Folding enqueues with fresh (strictly increasing) tags preserves the
execution order, starting from any well-ordered queue with older tags. -/
theorem enqueue_foldl_pairwise (ops : List QueuedOperation) :
    ∀ q : List QueuedOperation, q.Pairwise execBefore →
      (∀ x ∈ q, ∀ o ∈ ops, x.tag < o.tag) →
      ops.Pairwise (fun a b => a.tag < b.tag) →
      (ops.foldl queue_insert q).Pairwise execBefore := by
  induction ops with
  | nil => intro q hq _ _; exact hq
  | cons o os ih =>
      intro q hq hqtags hops
      rw [List.pairwise_cons] at hops
      refine ih _ ?_ ?_ hops.2
      · exact queue_insert_pairwise q o hq
          (fun x hx => hqtags x hx o (List.mem_cons_self o os))
      · intro x hx o2 ho2
        have hx2 : x ∈ o :: q := (queue_insert_perm q o).mem_iff.mp hx
        rcases List.mem_cons.mp hx2 with hx3 | hx3
        · rw [hx3]
          exact hops.1 o2 ho2
        · exact hqtags x hx3 o2 (List.mem_cons_of_mem o ho2)

/-- C6: when operations carry strictly increasing enqueue tags, the
Batcher queue they build is a permutation of the enqueued operations and
is pairwise in execution order: any earlier element of the flushed queue
has strictly higher priority, or equal priority and an earlier enqueue
tag.  Hence strictly higher-priority operations execute before strictly
lower-priority ones and equal-priority operations execute in enqueue
order. -/
theorem claim_C6_priority_queue (ops : List QueuedOperation)
    (htags : ops.Pairwise (fun a b => a.tag < b.tag)) :
    (enqueue_all ops).Perm ops ∧ (enqueue_all ops).Pairwise execBefore := by
  constructor
  · simpa using enqueue_foldl_perm ops []
  · exact enqueue_foldl_pairwise ops [] (List.Pairwise.nil) (by simp) htags

/-- Witness for C6 at a concrete enqueue sequence with a priority tie:
the high-priority operation moves to the front and the two priority-1
operations keep their enqueue order. -/
theorem claim_C6_witness :
    ([⟨1, 0⟩, ⟨2, 1⟩, ⟨1, 2⟩] : List QueuedOperation).Pairwise
        (fun a b => a.tag < b.tag) ∧
    ((enqueue_all [⟨1, 0⟩, ⟨2, 1⟩, ⟨1, 2⟩]).Perm [⟨1, 0⟩, ⟨2, 1⟩, ⟨1, 2⟩] ∧
      (enqueue_all [⟨1, 0⟩, ⟨2, 1⟩, ⟨1, 2⟩]).Pairwise execBefore) :=
  ⟨by decide, claim_C6_priority_queue [⟨1, 0⟩, ⟨2, 1⟩, ⟨1, 2⟩] (by decide)⟩

/-- Retention at a later cutoff implies retention at an earlier one. -/
theorem cutB_mono (rl : RateLimiterConfig) {now c : Int} (h : now ≤ c) {t : Int}
    (ht : cutB rl c t = true) : cutB rl now t = true := by
  simp [cutB] at ht ⊢
  omega

/-- Filtering by an earlier cutoff and then a later one collapses to the
later cutoff alone. -/
theorem filter_cut_collapse (rl : RateLimiterConfig) {now c : Int} (h : now ≤ c) :
    ∀ s : List Int, (s.filter (cutB rl now)).filter (cutB rl c) = s.filter (cutB rl c) := by
  intro s
  induction s with
  | nil => rfl
  | cons a s ih =>
      by_cases h1 : cutB rl now a = true
      · by_cases h2 : cutB rl c a = true <;> simp [List.filter_cons, h1, h2, ih]
      · have h2 : cutB rl c a = false := by
          by_contra hc
          exact h1 (cutB_mono rl h (by simpa using hc))
        simp [List.filter_cons, h1, h2, ih]

/-- A pointwise implication between Boolean predicates bounds countP. -/
theorem countP_le_of_imp (l : List Int) (p q : Int → Bool)
    (h : ∀ a ∈ l, p a = true → q a = true) : l.countP p ≤ l.countP q := by
  induction l with
  | nil => simp
  | cons a l ih =>
      have ih2 := ih (fun b hb => h b (List.mem_cons_of_mem a hb))
      rw [List.countP_cons, List.countP_cons]
      by_cases hp : p a = true
      · have hq := h a (List.mem_cons_self a l) hp
        simp only [hp, hq, if_pos]
        omega
      · simp only [hp, if_neg]
        by_cases hq : q a = true <;> simp [hq] <;> omega

/-- Master invariant of the sliding-window run: prior is the full list of
previously admitted timestamps, s the retained state, t0 a time at or
after every prior admission and at or before every remaining call.  Then
(a) whenever every trailing window of prior is within the cap, so is every
trailing window of the full admitted list, and (b) the retained state
stays the cutoff-filter image of the full admitted list for every cutoff
at or after the calls. -/
theorem rl_master (rl : RateLimiterConfig) :
    ∀ calls : List Int, calls.Pairwise (fun a b => a ≤ b) →
    ∀ t0 : Int, (∀ c ∈ calls, t0 ≤ c) →
    ∀ prior s : List Int,
      (∀ c : Int, t0 ≤ c → s.filter (cutB rl c) = prior.filter (cutB rl c)) →
      (∀ t ∈ prior, t ≤ t0) →
      (((∀ T : Int, prior.countP (winB rl T) ≤ rl.max_requests) →
          ∀ T : Int,
            (prior ++ rl_admitted rl s calls).countP (winB rl T) ≤ rl.max_requests) ∧
        (∀ c : Int, (∀ x ∈ calls, x ≤ c) → t0 ≤ c →
          (rl_state_after rl s calls).filter (cutB rl c)
            = (prior ++ rl_admitted rl s calls).filter (cutB rl c))) := by
  intro calls
  induction calls with
  | nil =>
      intro _ t0 _ prior s hinv _
      constructor
      · intro hbnd T
        simpa [rl_admitted] using hbnd T
      · intro c _ hc
        simpa [rl_state_after, rl_admitted] using hinv c hc
  | cons now cs ih =>
      intro hpw t0 hlb prior s hinv hub
      rw [List.pairwise_cons] at hpw
      have ht0now : t0 ≤ now := hlb now (List.mem_cons_self now cs)
      by_cases hadm : (s.filter (cutB rl now)).length < rl.max_requests
      · have hchk : check_rate_limit rl s now
            = (true, s.filter (cutB rl now) ++ [now]) := by
          simp [check_rate_limit, hadm]
        have hadmitted : rl_admitted rl s (now :: cs)
            = now :: rl_admitted rl (s.filter (cutB rl now) ++ [now]) cs := by
          simp [rl_admitted, hchk]
        have hstate : rl_state_after rl s (now :: cs)
            = rl_state_after rl (s.filter (cutB rl now) ++ [now]) cs := by
          simp [rl_state_after, hchk]
        have hinv2 : ∀ c : Int, now ≤ c →
            (s.filter (cutB rl now) ++ [now]).filter (cutB rl c)
              = (prior ++ [now]).filter (cutB rl c) := by
          intro c hc
          rw [List.filter_append, List.filter_append,
            filter_cut_collapse rl hc s, hinv c (le_trans ht0now hc)]
        have hub2 : ∀ t ∈ prior ++ [now], t ≤ now := by
          intro t htm
          rcases List.mem_append.mp htm with hin | hsing
          · exact le_trans (hub t hin) ht0now
          · simp at hsing
            exact le_of_eq hsing
        obtain ⟨A2, B2⟩ := ih hpw.2 now hpw.1 (prior ++ [now]) _ hinv2 hub2
        constructor
        · intro hbnd T
          have hbnd2 : ∀ T2 : Int,
              (prior ++ [now]).countP (winB rl T2) ≤ rl.max_requests := by
            intro T2
            rw [List.countP_append]
            by_cases hwin : winB rl T2 now = true
            · have hwin2 : T2 - rl.window < now ∧ now ≤ T2 := by
                simpa [winB] using hwin
              have himp : ∀ a ∈ prior, winB rl T2 a = true → cutB rl now a = true := by
                intro a _ hw
                have hw2 : T2 - rl.window < a ∧ a ≤ T2 := by simpa [winB] using hw
                simp only [cutB, decide_eq_true_eq]
                omega
              have h1 : prior.countP (winB rl T2) ≤ prior.countP (cutB rl now) :=
                countP_le_of_imp prior _ _ himp
              have h2 : prior.countP (cutB rl now) = (s.filter (cutB rl now)).length := by
                rw [List.countP_eq_length_filter, hinv now ht0now]
              have h3 : ([now] : List Int).countP (winB rl T2) = 1 := by
                simp [hwin]
              omega
            · have h3 : ([now] : List Int).countP (winB rl T2) = 0 := by
                simp [List.countP_cons, hwin]
              have h4 := hbnd T2
              omega
          have hfin := A2 hbnd2 T
          rw [hadmitted]
          simpa using hfin
        · intro c hcall hc
          have hnowc : now ≤ c := hcall now (List.mem_cons_self now cs)
          have hfin := B2 c (fun x hx => hcall x (List.mem_cons_of_mem now hx)) hnowc
          rw [hstate, hadmitted]
          simpa using hfin
      · have hchk : check_rate_limit rl s now = (false, s.filter (cutB rl now)) := by
          simp [check_rate_limit, hadm]
        have hadmitted : rl_admitted rl s (now :: cs)
            = rl_admitted rl (s.filter (cutB rl now)) cs := by
          simp [rl_admitted, hchk]
        have hstate : rl_state_after rl s (now :: cs)
            = rl_state_after rl (s.filter (cutB rl now)) cs := by
          simp [rl_state_after, hchk]
        have hinv2 : ∀ c : Int, now ≤ c →
            (s.filter (cutB rl now)).filter (cutB rl c) = prior.filter (cutB rl c) := by
          intro c hc
          rw [filter_cut_collapse rl hc s, hinv c (le_trans ht0now hc)]
        have hub2 : ∀ t ∈ prior, t ≤ now := fun t ht => le_trans (hub t ht) ht0now
        obtain ⟨A2, B2⟩ := ih hpw.2 now hpw.1 prior _ hinv2 hub2
        constructor
        · intro hbnd T
          rw [hadmitted]
          exact A2 hbnd T
        · intro c hcall hc
          have hnowc : now ≤ c := hcall now (List.mem_cons_self now cs)
          rw [hstate, hadmitted]
          exact B2 c (fun x hx => hcall x (List.mem_cons_of_mem now hx)) hnowc

/-- The admission decision of check_rate_limit, as a decide. -/
theorem check_rate_limit_fst (rl : RateLimiterConfig) (s : List Int) (c : Int) :
    (check_rate_limit rl s c).1
      = decide ((s.filter (cutB rl c)).length < rl.max_requests) := by
  by_cases h : (s.filter (cutB rl c)).length < rl.max_requests <;>
    simp [check_rate_limit, h]

/-- C5: for the sliding-window limiter run over non-decreasing call
times, (1) a call is admitted iff the number of previously admitted
requests with timestamps newer than now minus the window is strictly
below max_requests, and (2) every trailing window of width window holds
at most max_requests admitted requests. -/
theorem claim_C5_sliding_window (rl : RateLimiterConfig) :
    (∀ (p : List Int) (c : Int), (p ++ [c]).Pairwise (fun a b => a ≤ b) →
      (check_rate_limit rl (rl_state_after rl [] p) c).1
        = decide ((rl_admitted rl [] p).countP (cutB rl c) < rl.max_requests)) ∧
    (∀ calls : List Int, calls.Pairwise (fun a b => a ≤ b) →
      ∀ T : Int, (rl_admitted rl [] calls).countP (winB rl T) ≤ rl.max_requests) := by
  constructor
  · intro p c hpw
    rw [List.pairwise_append] at hpw
    have hpc : ∀ x ∈ p, x ≤ c := fun x hx => hpw.2.2 x hx c (List.mem_cons_self c [])
    have hfil : (rl_state_after rl [] p).filter (cutB rl c)
        = (rl_admitted rl [] p).filter (cutB rl c) := by
      cases p with
      | nil => rfl
      | cons a p2 =>
          have hp2 := hpw.1
          rw [List.pairwise_cons] at hp2
          have hlb : ∀ x ∈ a :: p2, a ≤ x := by
            intro x hx
            rcases List.mem_cons.mp hx with h | h
            · exact le_of_eq h.symm
            · exact hp2.1 x h
          have hres := (rl_master rl (a :: p2) hpw.1 a hlb [] []
            (fun _ _ => rfl) (by simp)).2 c hpc (hpc a (List.mem_cons_self a p2))
          simpa using hres
    rw [check_rate_limit_fst, hfil, ← List.countP_eq_length_filter]
  · intro calls hpw T
    cases calls with
    | nil => simp [rl_admitted]
    | cons a cs =>
        have hp2 := hpw
        rw [List.pairwise_cons] at hp2
        have hlb : ∀ x ∈ a :: cs, a ≤ x := by
          intro x hx
          rcases List.mem_cons.mp hx with h | h
          · exact le_of_eq h.symm
          · exact hp2.1 x h
        have hres := (rl_master rl (a :: cs) hpw a hlb [] []
          (fun _ _ => rfl) (by simp)).1 (by simp) T
        simpa using hres

/-- Witness for C5 with cap 2 and window 60: after admitted calls at times
0 and 10, the call at time 20 is denied exactly as the admitted-count test
dictates, and the trailing window ending at 60 holds at most 2 admitted
requests. -/
theorem claim_C5_witness :
    ((check_rate_limit ⟨2, 60⟩ (rl_state_after ⟨2, 60⟩ [] [0, 10]) 20).1
      = decide ((rl_admitted ⟨2, 60⟩ [] [0, 10]).countP (cutB ⟨2, 60⟩ 20) < 2)) ∧
    (rl_admitted ⟨2, 60⟩ [] [0, 10, 20]).countP (winB ⟨2, 60⟩ 60) ≤ 2 :=
  ⟨(claim_C5_sliding_window ⟨2, 60⟩).1 [0, 10] 20 (by decide),
   (claim_C5_sliding_window ⟨2, 60⟩).2 [0, 10, 20] (by decide) 60⟩
